import Mathlib

/-!
A shallow embedding of the grinbox relay (vault713/grinbox) in Lean 4,
with theorems checking the natural-language specification against the code.

Each definition is translated from the Rust sources, file and function
named in its doc comment.  The cryptographic primitives (base58check,
secp256k1 sign/verify) live in modules that are not part of the sources
(grinboxlib/src/utils/{base58,crypto,secp}.rs) and are treated by the
specification as a black box; they are modelled as abstract parameters.
-/

namespace Grinbox

/-! ## Wire protocol types (grinboxlib/src/types) -/

/-- grinboxlib/src/types/grinbox_response.rs: enum GrinboxError. -/
inductive GrinboxErr
  | unknownError
  | invalidRequest
  | invalidSignature
  | invalidChallenge
  | tooManySubscriptions
deriving DecidableEq, Repr

/-- grinboxlib/src/types/grinbox_response.rs: impl Display for GrinboxError
(colour escapes aside, the payload text shown below). -/
def GrinboxErr.display : GrinboxErr → String
  | .unknownError => "unknown error!"
  | .invalidRequest => "invalid request!"
  | .invalidSignature => "invalid signature!"
  | .invalidChallenge => "invalid challenge!"
  | .tooManySubscriptions => "too many subscriptions!"

/-- grinboxlib/src/types/grinbox_response.rs: enum GrinboxResponse. -/
inductive GrinboxResponse
  | ok
  | error (kind : GrinboxErr) (description : String)
  | challenge (str : String)
  | slate (from_ str signature challenge : String)
deriving DecidableEq, Repr

/-- src/server/mod.rs AsyncServer::error: the description is the Display
rendering of the kind. -/
def errorResp (kind : GrinboxErr) : GrinboxResponse :=
  .error kind kind.display

/-- grinboxlib/src/types/grinbox_request.rs: enum GrinboxRequest. -/
inductive GrinboxRequest
  | challengeReq
  | subscribeReq (address signature : String)
  | postSlateReq (from_ to_ str signature : String)
      (message_expiration_in_seconds : Option Nat)
  | unsubscribeReq (address : String)
deriving DecidableEq, Repr

/-! ## Addresses (grinboxlib/src/types/grinbox_address.rs) -/

/-- grinboxlib/src/types/grinbox_address.rs: struct GrinboxAddress. -/
structure GrinboxAddress where
  public_key : String
  domain : String
  port : Nat
  version_bytes : Option (List Nat)
deriving DecidableEq, Repr

def DEFAULT_GRINBOX_DOMAIN : String := "grinbox.io"

def DEFAULT_GRINBOX_PORT : Nat := 443

def GRINBOX_ADDRESS_VERSION_MAINNET : List Nat := [1, 11]

def GRINBOX_ADDRESS_VERSION_TESTNET : List Nat := [1, 120]

/-- grinboxlib/src/types/grinbox_address.rs: version_bytes(), selected by
grin_core's is_mainnet flag (external; passed as a parameter). -/
def versionBytes (mainnet : Bool) : List Nat :=
  if mainnet then GRINBOX_ADDRESS_VERSION_MAINNET else GRINBOX_ADDRESS_VERSION_TESTNET

/-- The base58 alphabet of GRINBOX_ADDRESS_REGEX's public_key group
(bitcoin alphabet: no 0, O, I, l). -/
def base58Chars : List Char :=
  "123456789ABCDEFGHJKLMNPQRSTUVWXYZabcdefghijkmnopqrstuvwxyz".toList

def isBase58Char (c : Char) : Bool := base58Chars.contains c

/-- The domain character class [a-zA-Z0-9.] of GRINBOX_ADDRESS_REGEX. -/
def isDomainChar (c : Char) : Bool := c.isAlpha || c.isDigit || c == '.'

/-- The characters of the optional scheme group of GRINBOX_ADDRESS_REGEX. -/
def schemeChars : List Char := "grinbox://".toList

/-- The `@(?P<domain>[a-zA-Z0-9.]+)(:(?P<port>[0-9]*))?` tail of
GRINBOX_ADDRESS_REGEX applied to the text after the `@`.  The domain class
excludes `:`, so the match splits at the first colon; the port group
admits the empty string. -/
def splitDomainPort (r : List Char) : Option (String × Option String) :=
  let d := r.takeWhile (fun c => c != ':')
  if d.all isDomainChar ∧ d ≠ [] then
    match r.dropWhile (fun c => c != ':') with
    | [] => some (⟨d⟩, none)
    | ':' :: p => if p.all Char.isDigit then some (⟨d⟩, some ⟨p⟩) else none
    | _ => none
  else none

/-- GRINBOX_ADDRESS_REGEX after the optional scheme: exactly 52 base58
characters, then the end or an `@domain(:port)?` tail. -/
def splitAddressCore (cs : List Char) : Option (String × Option String × Option String) :=
  if (cs.take 52).length = 52 ∧ (cs.take 52).all isBase58Char then
    match cs.drop 52 with
    | [] => some (⟨cs.take 52⟩, none, none)
    | '@' :: r =>
      match splitDomainPort r with
      | some (d, p) => some (⟨cs.take 52⟩, some d, p)
      | none => none
    | _ => none
  else none

/-- grinboxlib/src/types/grinbox_address.rs GRINBOX_ADDRESS_REGEX: the
anchored match.  The scheme is stripped when present; since `:` is not a
base58 character, a string starting with the scheme cannot also match with
the scheme group empty, so the split is deterministic. -/
def splitAddress (s : String) : Option (String × Option String × Option String) :=
  let cs := s.toList
  if cs.take 10 = schemeChars then splitAddressCore (cs.drop 10) else splitAddressCore cs

/-- Decimal value of a digit string (the accumulator of u16::from_str_radix). -/
def digitsVal (p : List Char) : Nat :=
  p.foldl (fun n c => n * 10 + (c.toNat - 48)) 0

/-- u16::from_str_radix(port, 10): Err on the empty string and on overflow
past 65535.  The call site unwraps the result, so `none` here models a
panic of the Rust code. -/
def parseU16 (p : List Char) : Option Nat :=
  if p = [] then none
  else if digitsVal p < 65536 then some (digitsVal p) else none

/-- grinboxlib error taxonomy relevant to address parsing
(grinboxlib/src/error/error_kind.rs). -/
inductive AddrError
  | parseFailed (s : String)
  | keyFailed
deriving DecidableEq, Repr

/-- Outcome of running a fallible Rust function that can also panic. -/
inductive PResult (α : Type)
  | panicked
  | failed (e : AddrError)
  | ok (a : α)
deriving DecidableEq, Repr

/-- Modelled from the spec: the base58check codec of
grinboxlib/src/utils/{base58,crypto,secp}.rs, which are not part of the
sources; spec treats sign/verify/base58check as a black box.
`fromBase58CheckRaw s n` is PublicKey::from_base58_check_raw with an
n-byte version prefix, returning the key and the version bytes read;
`toBase58Check k vb` is PublicKey::to_base58_check;
`fromBase58Check s vb` is PublicKey::from_base58_check expecting the
version bytes vb. -/
structure B58Codec (K : Type) where
  fromBase58CheckRaw : String → Nat → Option (K × List Nat)
  toBase58Check : K → List Nat → String
  fromBase58Check : String → List Nat → Option K

/-- The port capture of the regex, converted through
u16::from_str_radix(..).unwrap() (lines 60-62 and 79-81 of
grinbox_address.rs): the unwrap panics on an empty or out-of-range port. -/
def portOutcome (p : Option String) : PResult (Option Nat) :=
  match p with
  | none => .ok none
  | some ps =>
    match parseU16 ps.toList with
    | none => .panicked
    | some n => .ok (some n)

/-- grinbox_address.rs GrinboxAddress::from_str.  The port unwrap happens
before the public key is decoded, exactly as in the source.  The stored
public_key is the re-encoding of the decoded key (GrinboxAddress::new). -/
def fromStr {K : Type} (codec : B58Codec K) (mainnet : Bool) (s : String) :
    PResult GrinboxAddress :=
  match splitAddress s with
  | none => .failed (.parseFailed s)
  | some (k, d, p) =>
    match portOutcome p with
    | .panicked => .panicked
    | .failed e => .failed e
    | .ok port? =>
      match codec.fromBase58Check k (versionBytes mainnet) with
      | none => .failed .keyFailed
      | some key =>
        .ok { public_key := codec.toBase58Check key (versionBytes mainnet)
              domain := d.getD DEFAULT_GRINBOX_DOMAIN
              port := port?.getD DEFAULT_GRINBOX_PORT
              version_bytes := none }

/-- grinbox_address.rs GrinboxAddress::from_str_raw: same split, but the
key is decoded with a 2-byte version prefix of any value, and the version
bytes read are kept (GrinboxAddress::new_raw). -/
def fromStrRaw {K : Type} (codec : B58Codec K) (s : String) :
    PResult GrinboxAddress :=
  match splitAddress s with
  | none => .failed (.parseFailed s)
  | some (k, d, p) =>
    match portOutcome p with
    | .panicked => .panicked
    | .failed e => .failed e
    | .ok port? =>
      match codec.fromBase58CheckRaw k 2 with
      | none => .failed .keyFailed
      | some (key, vb) =>
        .ok { public_key := codec.toBase58Check key vb
              domain := d.getD DEFAULT_GRINBOX_DOMAIN
              port := port?.getD DEFAULT_GRINBOX_PORT
              version_bytes := some vb }

/-- grinbox_address.rs impl Display for GrinboxAddress. -/
def formatAddress (a : GrinboxAddress) : String :=
  "grinbox://" ++ a.public_key ++
    (if a.domain ≠ DEFAULT_GRINBOX_DOMAIN ∨ a.port ≠ DEFAULT_GRINBOX_PORT then
      "@" ++ a.domain ++ (if a.port ≠ DEFAULT_GRINBOX_PORT then ":" ++ Nat.repr a.port else "")
    else "")

/-- grinbox_address.rs GrinboxAddress::stripped: the Display form with the
10-byte scheme sliced off. -/
def stripped (a : GrinboxAddress) : String :=
  (formatAddress a).drop 10

/-! ## The relay server (src/server/mod.rs) -/

/-- src/server/mod.rs line 19. -/
def MAX_SUBSCRIPTIONS : Nat := 1

/-- src/server/mod.rs AsyncServer::get_challenge_raw: a fixed constant,
independent of the connection and of any session state. -/
def CHALLENGE_RAW : String := "7WUDtkSaKyGRUnQ22rE3QUXChV8DmA6NnunDYP4vheTpc"

/-- The per-connection state of AsyncServer that the protocol operations
read or write: the subscription map (HashMap<String, Subscription> with
Subscription a unit struct, so a set of keys) and the local identity used
by the federation check. -/
structure ServerState where
  subscriptions : Finset String
  grinbox_domain : String
  grinbox_port : Nat
deriving DecidableEq

/-- AsyncServer::get_challenge_raw takes &self but ignores it. -/
def getChallengeRaw (_st : ServerState) : String := CHALLENGE_RAW

/-- AsyncServer::verify_signature(public_key, challenge, signature)
succeeding: base58check-decode the key, hex-decode the signature, then
secp256k1-verify — all black-box crypto, abstracted as a boolean oracle. -/
abbrev Verify := String → String → String → Bool

/-- src/server/mod.rs AsyncServer::subscribe.  `sendOk` and `handlerOk`
are whether the two unbounded_send calls (broker request, response
handler registration) succeed.  Note the source answers a failed
signature verification with UnknownError. -/
def subscribe (vf : Verify) (st : ServerState) (address signature : String)
    (sendOk handlerOk : Bool) : ServerState × GrinboxResponse :=
  if vf address (getChallengeRaw st) signature then
    if st.subscriptions.card = MAX_SUBSCRIPTIONS then
      (st, errorResp .tooManySubscriptions)
    else if !sendOk then (st, errorResp .unknownError)
    else if !handlerOk then (st, errorResp .unknownError)
    else ({ st with subscriptions := insert address st.subscriptions }, .ok)
  else (st, errorResp .unknownError)

/-- src/server/mod.rs AsyncServer::unsubscribe: the entry is removed from
the map first (HashMap::remove), and only then is the broker adapter
contacted; a failed send answers UnknownError without restoring the
entry. -/
def unsubscribe (st : ServerState) (address : String) (sendOk : Bool) :
    ServerState × GrinboxResponse :=
  let found := address ∈ st.subscriptions
  let st' := { st with subscriptions := st.subscriptions.erase address }
  if found then
    (st', if sendOk then .ok else errorResp .unknownError)
  else (st', errorResp .invalidRequest)

/-- src/server/mod.rs struct SignedPayload: the broker payload
(JSON-serialized in the source; serde_json::to_string is injective on
this struct, so the record stands for its serialization). -/
structure SignedPayload where
  str : String
  challenge : String
  signature : String
deriving DecidableEq, Repr

/-- src/broker/broker_protocol.rs BrokerRequest::PostMessage (the variant
the server sends; the response_sender of Subscribe is abstracted away). -/
structure PostedMessage where
  subject : String
  payload : SignedPayload
  reply_to : String
  message_expiration_in_seconds : Option Nat
deriving DecidableEq, Repr

/-- The action the federation closure of
AsyncServer::post_slate_federated (src/server/mod.rs lines 329-359)
takes on each message from the peer relay. -/
inductive FedAction
  | sendPost
  | closeAbnormal
  | closeNormal
  | ignore
deriving DecidableEq, Repr

/-- src/server/mod.rs lines 333-357: on the peer challenge, send the
PostSlate verbatim; on a peer Error, close with CloseCode::Abnormal; on
Ok, close with CloseCode::Normal; anything else is ignored. -/
def fedHandleMessage : GrinboxResponse → FedAction
  | .challenge _ => .sendPost
  | .error _ _ => .closeAbnormal
  | .ok => .closeNormal
  | .slate _ _ _ _ => .ignore

/-- src/server/mod.rs lines 362-365: post_slate_federated answers the
originator from the Result of ws::connect alone.  ws::connect returns Ok
whenever the event loop ran and shut down — a close handshake, with
Normal or Abnormal code alike, is not an Err — so `connectOk` is the only
input. -/
def postSlateFederatedResult (connectOk : Bool) : GrinboxResponse :=
  if connectOk then .ok else errorResp .unknownError

/-- src/server/mod.rs AsyncServer::post_slate.  `brokerSendOk` is whether
the unbounded_send of the broker PostMessage succeeds; `fedConnectOk` is
the Result of the ws::connect call of the federated path.  The returned
PostedMessage is what was handed to the broker, when one was. -/
def postSlate {K : Type} (codec : B58Codec K) (vf : Verify) (st : ServerState)
    (from_ to_ str signature : String) (message_expiration_in_seconds : Option Nat)
    (brokerSendOk fedConnectOk : Bool) :
    PResult (GrinboxResponse × Option PostedMessage) :=
  match fromStrRaw codec from_ with
  | .panicked => .panicked
  | .failed _ => .ok (errorResp .invalidRequest, none)
  | .ok from_address =>
    match fromStrRaw codec to_ with
    | .panicked => .panicked
    | .failed _ => .ok (errorResp .invalidRequest, none)
    | .ok to_address =>
      let r1 := vf from_address.public_key str signature
      let r2 := vf from_address.public_key (str ++ CHALLENGE_RAW) signature
      let challenge_raw := if r1 then "" else CHALLENGE_RAW
      if !r1 && !r2 then .ok (errorResp .invalidSignature, none)
      else if to_address.port = st.grinbox_port ∧ to_address.domain = st.grinbox_domain then
        if brokerSendOk then
          .ok (.ok, some { subject := to_address.public_key
                           payload := { str := str, challenge := challenge_raw,
                                        signature := signature }
                           reply_to := stripped from_address
                           message_expiration_in_seconds })
        else .ok (errorResp .unknownError, none)
      else .ok (postSlateFederatedResult fedConnectOk, none)

/-- The protocol operations that touch a connection, for stating the
subscription-count invariant.  post_slate takes &self and cannot change
the map; Drop (teardown) iterates the map sending broker unsubscribes
but does not mutate it. -/
inductive ServerOp
  | subOp (address signature : String) (sendOk handlerOk : Bool)
  | unsubOp (address : String) (sendOk : Bool)
  | postOp (from_ to_ str signature : String) (ttl : Option Nat) (bOk fOk : Bool)
  | teardown

/-- The state component of running one operation on a connection. -/
def stepState (vf : Verify) (st : ServerState) : ServerOp → ServerState
  | .subOp a s o1 o2 => (subscribe vf st a s o1 o2).1
  | .unsubOp a o1 => (unsubscribe st a o1).1
  | .postOp _ _ _ _ _ _ _ => st
  | .teardown => st

/-! ## The broker adapter (src/broker/rabbit_broker.rs) -/

def DEFAULT_MESSAGE_EXPIRATION : String := "86400000"

/-- What rabbit_broker.rs handle_post_message publishes: destination and
routing key `subject`, the payload bytes, and BasicProperties carrying
the reply-to and expiration headers. -/
structure PublishedMessage where
  destination : String
  body : String
  reply_to : String
  expiration : String
deriving DecidableEq, Repr

/-- src/broker/rabbit_broker.rs handle_post_message (lines 189-205): the
expiration property is always DEFAULT_MESSAGE_EXPIRATION; no ttl is
taken. -/
def handle_post_message (subject payload reply_to : String) : PublishedMessage :=
  { destination := subject
    body := payload
    reply_to := reply_to
    expiration := DEFAULT_MESSAGE_EXPIRATION }

/-- src/broker/broker_protocol.rs BrokerRequest as the adapter sees it:
the payload is an opaque string (the serialized SignedPayload). -/
inductive BrokerRequest
  | subscribeB (id subject : String)
  | unsubscribeB (id : String)
  | postMessageB (subject payload reply_to : String)
      (message_expiration_in_seconds : Option Nat)
deriving DecidableEq, Repr

/-- src/broker/rabbit_broker.rs Broker::start request loop (lines 66-79):
the PostMessage variant is handed to handle_post_message as subject,
payload and reply_to only; a message_expiration_in_seconds carried by
the request (src/broker/broker_protocol.rs) is never read. -/
def dispatchBrokerRequest : BrokerRequest → Option PublishedMessage
  | .postMessageB subject payload reply_to _ =>
      some (handle_post_message subject payload reply_to)
  | _ => none

/-! ## The subscriber client reconnect loop
(grinboxlib/src/client/grinbox_client.rs) -/

/-- grinbox_client.rs struct ConnectionMetadata. -/
structure ConnMeta where
  retries : Nat
  connected_at_least_once : Bool
deriving DecidableEq, Repr

/-- ConnectionMetadata::new. -/
def ConnMeta.init : ConnMeta := ⟨0, false⟩

/-- grinbox_client.rs line 233: std::cmp::min(32, 2u64.pow(retries)).
2u64.pow wraps modulo 2^64 (release build), so the computed value is
min 32 (2^retries mod 2^64). -/
def sleepSeconds (retries : Nat) : Nat := min 32 ((2 ^ retries) % 2 ^ 64)

/-- grinbox_client.rs lines 228-237: the branch taken after a connection
attempt ends and the stop flag was not observed: sleep, then increment
retries (a u32, so modulo 2^32).  Returns the new metadata and the
seconds slept. -/
def failedAttemptStep (m : ConnMeta) : ConnMeta × Nat :=
  (⟨(m.retries + 1) % 2 ^ 32, m.connected_at_least_once⟩, sleepSeconds m.retries)

/-- grinbox_client.rs on_open (lines 288-302): record
connected_at_least_once and reset retries to 0. -/
def onOpenMeta (_m : ConnMeta) : ConnMeta := ⟨0, true⟩


/-- The canonical shape of the public key capture: 52 base58 characters. -/
def validKeyStr (k : String) : Prop :=
  k.toList.length = 52 ∧ k.toList.all isBase58Char = true

/-- The canonical shape of the domain capture: nonempty, [a-zA-Z0-9.]. -/
def validDomainStr (d : String) : Prop :=
  d.toList ≠ [] ∧ d.toList.all isDomainChar = true

/-- The black-box codec round-trips on the given text: decoding succeeds
and re-encoding the decoded key gives the text back (base58check is a
canonical encoding). -/
def codecRoundTrips {K : Type} (codec : B58Codec K) (vb : List Nat) (k : String) : Prop :=
  ∃ key, codec.fromBase58Check k vb = some key ∧ codec.toBase58Check key vb = k


/-! ## Concrete instances used by witnesses -/

/-- A 52-character base58 key text. -/
def demoKey : String := ⟨List.replicate 52 '1'⟩

/-- A concrete codec instance: the key type is the text itself, so
decode and encode round-trip definitionally. -/
def demoCodec : B58Codec String :=
  { fromBase58CheckRaw := fun s _ => some (s, [1, 11])
    toBase58Check := fun k _ => k
    fromBase58Check := fun s _ => some s }

/-- A connection state with the default local identity of main.rs and no
subscriptions. -/
def demoState : ServerState := ⟨∅, "127.0.0.1", 13420⟩

/-- A connection state holding one subscription. -/
def demoSubState : ServerState := ⟨{"x"}, "127.0.0.1", 13420⟩

/-- The address record fromStrRaw demoCodec demoKey evaluates to. -/
def demoFa : GrinboxAddress := ⟨demoKey, "grinbox.io", 443, some [1, 11]⟩


/-! ## Auxiliary lemmas -/

theorem digitChar_toNat (d : Nat) (h : d < 10) : (Nat.digitChar d).toNat - 48 = d := by
  interval_cases d <;> rfl

theorem digitChar_isDigit (d : Nat) (h : d < 10) : (Nat.digitChar d).isDigit = true := by
  interval_cases d <;> rfl

theorem toDigitsCore_append : ∀ (m fuel : Nat) (acc : List Char), m < fuel →
    Nat.toDigitsCore 10 fuel m acc = Nat.toDigits 10 m ++ acc := by
  intro m
  induction m using Nat.strong_induction_on with
  | _ m ih =>
    intro fuel acc h
    obtain ⟨f, rfl⟩ : ∃ f, fuel = f + 1 := ⟨fuel - 1, by omega⟩
    unfold Nat.toDigits
    rw [Nat.toDigitsCore, Nat.toDigitsCore]
    by_cases h10 : m / 10 = 0
    · simp [h10]
    · have hm10 : m / 10 < m := Nat.div_lt_self (by omega) (by omega)
      have hmf : m / 10 < f := by
        have : 10 ≤ m := by
          by_contra hlt
          exact h10 (Nat.div_eq_of_lt (by omega))
        omega
      simp only [h10, if_false]
      rw [ih (m / 10) hm10 f _ hmf, ih (m / 10) hm10 m _ hm10]
      simp

theorem toDigits_split (m : Nat) (h : ¬ m / 10 = 0) :
    Nat.toDigits 10 m = Nat.toDigits 10 (m / 10) ++ [Nat.digitChar (m % 10)] := by
  have hm10 : m / 10 < m := Nat.div_lt_self (by omega) (by omega)
  unfold Nat.toDigits
  rw [Nat.toDigitsCore]
  simp only [h, if_false]
  exact toDigitsCore_append (m / 10) m [Nat.digitChar (m % 10)] hm10

theorem toDigits_single (m : Nat) (h : m / 10 = 0) :
    Nat.toDigits 10 m = [Nat.digitChar (m % 10)] := by
  unfold Nat.toDigits
  rw [Nat.toDigitsCore]
  simp [h]

theorem foldl_toDigits : ∀ (m : Nat) (i : Nat),
    (Nat.toDigits 10 m).foldl (fun n c => n * 10 + (c.toNat - 48)) i
      = i * 10 ^ (Nat.toDigits 10 m).length + m := by
  intro m
  induction m using Nat.strong_induction_on with
  | _ m ih =>
    intro i
    by_cases h10 : m / 10 = 0
    · have hm : m < 10 := by
        by_contra hlt
        have := Nat.div_le_div_right (c := 10) (Nat.le_of_not_lt hlt)
        simp at this; omega
      rw [toDigits_single m h10]
      simp [List.foldl, digitChar_toNat (m % 10) (Nat.mod_lt _ (by omega))]
      have : m % 10 = m := Nat.mod_eq_of_lt hm
      omega
    · have hm10 : m / 10 < m := Nat.div_lt_self (by omega) (by omega)
      rw [toDigits_split m h10]
      rw [List.foldl_append, ih (m / 10) hm10 i]
      simp [digitChar_toNat (m % 10) (Nat.mod_lt _ (by omega))]
      rw [Nat.pow_succ]
      have hdm : 10 * (m / 10) + m % 10 = m := Nat.div_add_mod m 10
      ring_nf
      omega

theorem toDigits_all_isDigit : ∀ (m : Nat), (Nat.toDigits 10 m).all Char.isDigit = true := by
  intro m
  induction m using Nat.strong_induction_on with
  | _ m ih =>
    by_cases h10 : m / 10 = 0
    · rw [toDigits_single m h10]
      simp [digitChar_isDigit (m % 10) (Nat.mod_lt _ (by omega))]
    · have hm10 : m / 10 < m := Nat.div_lt_self (by omega) (by omega)
      rw [toDigits_split m h10]
      simp [List.all_append, ih (m / 10) hm10,
        digitChar_isDigit (m % 10) (Nat.mod_lt _ (by omega))]

theorem toDigits_ne_nil (m : Nat) : Nat.toDigits 10 m ≠ [] := by
  by_cases h10 : m / 10 = 0
  · rw [toDigits_single m h10]; simp
  · rw [toDigits_split m h10]; simp

theorem repr_toList (n : Nat) : (Nat.repr n).toList = Nat.toDigits 10 n := rfl

theorem digitsVal_repr (p : Nat) : digitsVal (Nat.repr p).toList = p := by
  rw [repr_toList]
  unfold digitsVal
  rw [foldl_toDigits]
  simp

theorem parseU16_repr (p : Nat) (hp : p < 65536) :
    parseU16 (Nat.repr p).toList = some p := by
  unfold parseU16
  rw [digitsVal_repr]
  rw [repr_toList]
  simp [toDigits_ne_nil p, hp]

theorem takeWhile_append_stop (q : Char → Bool) (l : List Char) (c : Char) (r : List Char)
    (hl : l.all q = true) (hc : q c = false) :
    (l ++ c :: r).takeWhile q = l ∧ (l ++ c :: r).dropWhile q = c :: r := by
  induction l with
  | nil => simp [List.takeWhile, List.dropWhile, hc]
  | cons a l ih =>
    simp only [List.all_cons, Bool.and_eq_true] at hl
    simp [List.takeWhile_cons, List.dropWhile_cons, hl.1, ih hl.2]

theorem takeWhile_all (q : Char → Bool) (l : List Char) (hl : l.all q = true) :
    l.takeWhile q = l ∧ l.dropWhile q = [] := by
  induction l with
  | nil => simp
  | cons a l ih =>
    simp only [List.all_cons, Bool.and_eq_true] at hl
    simp [List.takeWhile_cons, List.dropWhile_cons, hl.1, ih hl.2]

theorem toList_append (s t : String) : (s ++ t).toList = s.toList ++ t.toList :=
  String.data_append s t

theorem domainChar_ne_colon (c : Char) (h : isDomainChar c = true) : (c != ':') = true := by
  cases hc : c == ':' with
  | false => simp [bne, hc]
  | true =>
    have : c = ':' := by
      have := (beq_iff_eq (a := c) (b := ':')).mp hc
      exact this
    subst this
    simp [isDomainChar] at h

theorem domain_all_ne_colon (d : List Char) (h : d.all isDomainChar = true) :
    d.all (fun c => c != ':') = true := by
  rw [List.all_eq_true] at h ⊢
  intro x hx
  exact domainChar_ne_colon x (h x hx)

theorem splitDomainPort_noPort (d : String) (hd : validDomainStr d) :
    splitDomainPort d.toList = some (d, none) := by
  unfold splitDomainPort
  obtain ⟨tw, dw⟩ := takeWhile_all _ d.toList (domain_all_ne_colon _ hd.2)
  rw [tw, dw]
  rw [if_pos ⟨hd.2, hd.1⟩]
  rfl

theorem splitDomainPort_port (d : String) (ps : List Char) (hd : validDomainStr d)
    (hps : ps.all Char.isDigit = true) :
    splitDomainPort (d.toList ++ ':' :: ps) = some (d, some ⟨ps⟩) := by
  unfold splitDomainPort
  obtain ⟨tw, dw⟩ := takeWhile_append_stop _ d.toList ':' ps
    (domain_all_ne_colon _ hd.2) (by simp)
  rw [tw, dw]
  rw [if_pos ⟨hd.2, hd.1⟩]
  simp [hps]

theorem splitAddressCore_keyOnly (k : String) (hk : validKeyStr k) :
    splitAddressCore k.toList = some (k, none, none) := by
  unfold splitAddressCore
  rw [show k.toList.take 52 = k.toList from by rw [← hk.1, List.take_length]]
  rw [if_pos ⟨hk.1, hk.2⟩]
  rw [List.drop_of_length_le (le_of_eq hk.1)]
  rfl

theorem splitAddressCore_tail (k : String) (r : List Char) (hk : validKeyStr k) :
    splitAddressCore (k.toList ++ '@' :: r) =
      match splitDomainPort r with
      | some (d, p) => some (k, some d, p)
      | none => none := by
  unfold splitAddressCore
  rw [List.take_left' hk.1, List.drop_left' hk.1]
  rw [if_pos ⟨hk.1, hk.2⟩]
  rfl

theorem take_ten_ne_scheme (k : String) (r : List Char) (hk : validKeyStr k) :
    ¬ (k.toList ++ r).take 10 = schemeChars := by
  intro heq
  have h10 : (10 : Nat) ≤ k.toList.length := by rw [hk.1]; omega
  rw [List.take_append_of_le_length h10] at heq
  have hcolon : ':' ∈ k.toList.take 10 := by
    rw [heq]
    decide
  have hmem : ':' ∈ k.toList := List.take_subset 10 k.toList hcolon
  have := (List.all_eq_true.mp hk.2) ':' hmem
  simp [isBase58Char, base58Chars] at this

theorem splitAddress_scheme (k : String) (r : List Char) :
    splitAddress ⟨schemeChars ++ (k.toList ++ r)⟩ = splitAddressCore (k.toList ++ r) := by
  have hsch : schemeChars.length = 10 := rfl
  show (if (schemeChars ++ (k.toList ++ r)).take 10 = schemeChars then
      splitAddressCore ((schemeChars ++ (k.toList ++ r)).drop 10)
    else splitAddressCore (schemeChars ++ (k.toList ++ r))) = splitAddressCore (k.toList ++ r)
  rw [List.take_left' hsch, if_pos rfl, List.drop_left' hsch]

theorem splitAddress_noScheme (k : String) (r : List Char) (hk : validKeyStr k) :
    splitAddress ⟨k.toList ++ r⟩ = splitAddressCore (k.toList ++ r) := by
  show (if (k.toList ++ r).take 10 = schemeChars then
      splitAddressCore ((k.toList ++ r).drop 10)
    else splitAddressCore (k.toList ++ r)) = splitAddressCore (k.toList ++ r)
  rw [if_neg (take_ten_ne_scheme k r hk)]

theorem scheme_toList : ("grinbox://" : String).toList = schemeChars := rfl

theorem at_toList : ("@" : String).toList = ['@'] := rfl

theorem colon_toList : (":" : String).toList = [':'] := rfl

theorem splitAddress_eq_core (s : String) (k : String) (r : List Char) (_hk : validKeyStr k)
    (hs : s.toList = schemeChars ++ (k.toList ++ r)) :
    splitAddress s = splitAddressCore (k.toList ++ r) := by
  have heq : s = ⟨schemeChars ++ (k.toList ++ r)⟩ := String.ext hs
  rw [heq, splitAddress_scheme k r]

theorem splitAddress_eq_core_noscheme (s : String) (k : String) (r : List Char)
    (hk : validKeyStr k) (hs : s.toList = k.toList ++ r) :
    splitAddress s = splitAddressCore (k.toList ++ r) := by
  have heq : s = ⟨k.toList ++ r⟩ := String.ext hs
  rw [heq, splitAddress_noScheme k r hk]

theorem splitAddressCore_shape2 (k d : String) (hk : validKeyStr k) (hd : validDomainStr d) :
    splitAddressCore (k.toList ++ '@' :: d.toList) = some (k, some d, none) := by
  rw [splitAddressCore_tail k d.toList hk, splitDomainPort_noPort d hd]

theorem splitAddressCore_shape3 (k d : String) (ps : List Char) (hk : validKeyStr k)
    (hd : validDomainStr d) (hps : ps.all Char.isDigit = true) :
    splitAddressCore (k.toList ++ '@' :: (d.toList ++ ':' :: ps)) = some (k, some d, some ⟨ps⟩) := by
  rw [splitAddressCore_tail k _ hk, splitDomainPort_port d ps hd hps]

theorem fromStr_ofSplit1 {K : Type} (codec : B58Codec K) (mn : Bool) (s : String)
    (k : String) (key : K)
    (hsplit : splitAddress s = some (k, none, none))
    (hdec : codec.fromBase58Check k (versionBytes mn) = some key)
    (henc : codec.toBase58Check key (versionBytes mn) = k) :
    fromStr codec mn s = .ok ⟨k, DEFAULT_GRINBOX_DOMAIN, DEFAULT_GRINBOX_PORT, none⟩ := by
  unfold fromStr
  rw [hsplit]
  show (match codec.fromBase58Check k (versionBytes mn) with
    | none => PResult.failed .keyFailed
    | some key => PResult.ok { public_key := codec.toBase58Check key (versionBytes mn)
                               domain := DEFAULT_GRINBOX_DOMAIN
                               port := DEFAULT_GRINBOX_PORT
                               version_bytes := none } :
    PResult GrinboxAddress) = .ok ⟨k, DEFAULT_GRINBOX_DOMAIN, DEFAULT_GRINBOX_PORT, none⟩
  rw [hdec]
  simp [henc]

theorem fromStr_ofSplit2 {K : Type} (codec : B58Codec K) (mn : Bool) (s : String)
    (k d : String) (key : K)
    (hsplit : splitAddress s = some (k, some d, none))
    (hdec : codec.fromBase58Check k (versionBytes mn) = some key)
    (henc : codec.toBase58Check key (versionBytes mn) = k) :
    fromStr codec mn s = .ok ⟨k, d, DEFAULT_GRINBOX_PORT, none⟩ := by
  unfold fromStr
  rw [hsplit]
  show (match codec.fromBase58Check k (versionBytes mn) with
    | none => PResult.failed .keyFailed
    | some key => PResult.ok { public_key := codec.toBase58Check key (versionBytes mn)
                               domain := d
                               port := DEFAULT_GRINBOX_PORT
                               version_bytes := none } :
    PResult GrinboxAddress) = .ok ⟨k, d, DEFAULT_GRINBOX_PORT, none⟩
  rw [hdec]
  simp [henc]

theorem fromStr_ofSplit3 {K : Type} (codec : B58Codec K) (mn : Bool) (s : String)
    (k d : String) (p : Nat) (key : K)
    (hsplit : splitAddress s = some (k, some d, some (Nat.repr p)))
    (hp : p < 65536)
    (hdec : codec.fromBase58Check k (versionBytes mn) = some key)
    (henc : codec.toBase58Check key (versionBytes mn) = k) :
    fromStr codec mn s = .ok ⟨k, d, p, none⟩ := by
  unfold fromStr
  rw [hsplit]
  show (match portOutcome (some (Nat.repr p)) with
    | PResult.panicked => PResult.panicked
    | PResult.failed e => PResult.failed e
    | PResult.ok port? =>
      match codec.fromBase58Check k (versionBytes mn) with
      | none => PResult.failed .keyFailed
      | some key => PResult.ok { public_key := codec.toBase58Check key (versionBytes mn)
                                 domain := d
                                 port := port?.getD DEFAULT_GRINBOX_PORT
                                 version_bytes := none } :
    PResult GrinboxAddress) = .ok ⟨k, d, p, none⟩
  have hport : portOutcome (some (Nat.repr p)) = .ok (some p) := by
    have h1 : parseU16 (Nat.repr p).data = some p := parseU16_repr p hp
    simp [portOutcome, h1]
  rw [hport, hdec]
  simp [henc]

theorem formatAddress_default (k : String) :
    formatAddress ⟨k, DEFAULT_GRINBOX_DOMAIN, DEFAULT_GRINBOX_PORT, none⟩ = "grinbox://" ++ k := by
  simp [formatAddress, String.append_empty]

theorem formatAddress_domain (k d : String) (hdd : d ≠ DEFAULT_GRINBOX_DOMAIN) :
    formatAddress ⟨k, d, DEFAULT_GRINBOX_PORT, none⟩ = "grinbox://" ++ k ++ "@" ++ d := by
  simp [formatAddress, hdd, String.append_empty, String.append_assoc]

theorem formatAddress_domain_port (k d : String) (p : Nat) (hp443 : p ≠ DEFAULT_GRINBOX_PORT) :
    formatAddress ⟨k, d, p, none⟩ = "grinbox://" ++ k ++ "@" ++ d ++ ":" ++ Nat.repr p := by
  simp [formatAddress, hp443, String.append_assoc]

/-- C5: for canonical address strings (scheme present, default domain and
port omitted when they hold), parsing then formatting is the identity,
and parsing also accepts the string without the scheme. -/
theorem address_roundtrip_canonical {K : Type} (codec : B58Codec K) (mn : Bool)
    (k d : String) (p : Nat)
    (hk : validKeyStr k) (hrt : codecRoundTrips codec (versionBytes mn) k)
    (hd : validDomainStr d) (hp : p < 65536) :
    (fromStr codec mn ("grinbox://" ++ k) = .ok ⟨k, DEFAULT_GRINBOX_DOMAIN, DEFAULT_GRINBOX_PORT, none⟩
      ∧ formatAddress ⟨k, DEFAULT_GRINBOX_DOMAIN, DEFAULT_GRINBOX_PORT, none⟩ = "grinbox://" ++ k
      ∧ fromStr codec mn k = .ok ⟨k, DEFAULT_GRINBOX_DOMAIN, DEFAULT_GRINBOX_PORT, none⟩)
    ∧ (d ≠ DEFAULT_GRINBOX_DOMAIN →
      fromStr codec mn ("grinbox://" ++ k ++ "@" ++ d) = .ok ⟨k, d, DEFAULT_GRINBOX_PORT, none⟩
      ∧ formatAddress ⟨k, d, DEFAULT_GRINBOX_PORT, none⟩ = "grinbox://" ++ k ++ "@" ++ d
      ∧ fromStr codec mn (k ++ "@" ++ d) = .ok ⟨k, d, DEFAULT_GRINBOX_PORT, none⟩)
    ∧ (p ≠ DEFAULT_GRINBOX_PORT →
      fromStr codec mn ("grinbox://" ++ k ++ "@" ++ d ++ ":" ++ Nat.repr p) = .ok ⟨k, d, p, none⟩
      ∧ formatAddress ⟨k, d, p, none⟩ = "grinbox://" ++ k ++ "@" ++ d ++ ":" ++ Nat.repr p
      ∧ fromStr codec mn (k ++ "@" ++ d ++ ":" ++ Nat.repr p) = .ok ⟨k, d, p, none⟩) := by
  obtain ⟨key, hdec, henc⟩ := hrt
  have hsplit1 : splitAddress ("grinbox://" ++ k) = some (k, none, none) := by
    rw [splitAddress_eq_core _ k [] hk
      (by rw [toList_append, scheme_toList, List.append_nil])]
    rw [List.append_nil, splitAddressCore_keyOnly k hk]
  have hsplit1n : splitAddress k = some (k, none, none) := by
    rw [splitAddress_eq_core_noscheme k k [] hk (List.append_nil _).symm]
    rw [List.append_nil, splitAddressCore_keyOnly k hk]
  have hsplit2 : splitAddress ("grinbox://" ++ k ++ "@" ++ d) = some (k, some d, none) := by
    rw [splitAddress_eq_core _ k ('@' :: d.toList) hk
      (by simp [toList_append, schemeChars, at_toList, List.append_assoc])]
    rw [splitAddressCore_shape2 k d hk hd]
  have hsplit2n : splitAddress (k ++ "@" ++ d) = some (k, some d, none) := by
    rw [splitAddress_eq_core_noscheme _ k ('@' :: d.toList) hk
      (by simp [toList_append, at_toList, List.append_assoc])]
    rw [splitAddressCore_shape2 k d hk hd]
  have hdigits : (Nat.repr p).toList.all Char.isDigit = true := by
    rw [repr_toList]; exact toDigits_all_isDigit p
  have hsplit3 : splitAddress ("grinbox://" ++ k ++ "@" ++ d ++ ":" ++ Nat.repr p)
      = some (k, some d, some (Nat.repr p)) := by
    rw [splitAddress_eq_core _ k ('@' :: (d.toList ++ ':' :: (Nat.repr p).toList)) hk
      (by simp [toList_append, schemeChars, at_toList, colon_toList, List.append_assoc])]
    rw [splitAddressCore_shape3 k d (Nat.repr p).toList hk hd hdigits]
    rfl
  have hsplit3n : splitAddress (k ++ "@" ++ d ++ ":" ++ Nat.repr p)
      = some (k, some d, some (Nat.repr p)) := by
    rw [splitAddress_eq_core_noscheme _ k ('@' :: (d.toList ++ ':' :: (Nat.repr p).toList)) hk
      (by simp [toList_append, at_toList, colon_toList, List.append_assoc])]
    rw [splitAddressCore_shape3 k d (Nat.repr p).toList hk hd hdigits]
    rfl
  refine ⟨⟨?_, ?_, ?_⟩, fun hdd => ⟨?_, ?_, ?_⟩, fun hp443 => ⟨?_, ?_, ?_⟩⟩
  · exact fromStr_ofSplit1 codec mn _ k key hsplit1 hdec henc
  · exact formatAddress_default k
  · exact fromStr_ofSplit1 codec mn _ k key hsplit1n hdec henc
  · exact fromStr_ofSplit2 codec mn _ k d key hsplit2 hdec henc
  · exact formatAddress_domain k d hdd
  · exact fromStr_ofSplit2 codec mn _ k d key hsplit2n hdec henc
  · exact fromStr_ofSplit3 codec mn _ k d p key hsplit3 hp hdec henc
  · exact formatAddress_domain_port k d p hp443
  · exact fromStr_ofSplit3 codec mn _ k d p key hsplit3n hp hdec henc

/-! ## Claim theorems -/

/-- C1: post_slate verifies the signature over the body alone, then over
body ++ server challenge; the broker payload records challenge "" in the
first case and the server challenge in the second; both failing answers
Error(InvalidSignature). -/
theorem post_slate_two_step_verification {K : Type} (codec : B58Codec K) (vf : Verify)
    (st : ServerState) (from_ to_ str sig : String) (ttl : Option Nat)
    (bOk fOk : Bool) (fa ta : GrinboxAddress)
    (hf : fromStrRaw codec from_ = .ok fa) (ht : fromStrRaw codec to_ = .ok ta) :
    (vf fa.public_key str sig = false → vf fa.public_key (str ++ CHALLENGE_RAW) sig = false →
      postSlate codec vf st from_ to_ str sig ttl bOk fOk
        = .ok (errorResp .invalidSignature, none))
    ∧ (vf fa.public_key str sig = true →
        ta.port = st.grinbox_port → ta.domain = st.grinbox_domain → bOk = true →
      postSlate codec vf st from_ to_ str sig ttl bOk fOk
        = .ok (.ok, some ⟨ta.public_key, ⟨str, "", sig⟩, stripped fa, ttl⟩))
    ∧ (vf fa.public_key str sig = false → vf fa.public_key (str ++ CHALLENGE_RAW) sig = true →
        ta.port = st.grinbox_port → ta.domain = st.grinbox_domain → bOk = true →
      postSlate codec vf st from_ to_ str sig ttl bOk fOk
        = .ok (.ok, some ⟨ta.public_key, ⟨str, CHALLENGE_RAW, sig⟩, stripped fa, ttl⟩)) := by
  refine ⟨fun h1 h2 => ?_, fun h1 hp hd hb => ?_, fun h1 h2 hp hd hb => ?_⟩ <;>
    simp [postSlate, hf, ht, h1, *]

/-- C1 witness. -/
theorem post_slate_two_step_verification_witness :
    fromStrRaw demoCodec demoKey = .ok demoFa
    ∧ postSlate demoCodec (fun _ _ _ => false) demoState demoKey demoKey "m" "s" none true true
        = .ok (errorResp .invalidSignature, none) :=
  ⟨rfl,
   (post_slate_two_step_verification demoCodec (fun _ _ _ => false) demoState demoKey demoKey
      "m" "s" none true true demoFa demoFa rfl rfl).1 rfl rfl⟩

/-- C2: the subscription map never exceeds MAX_SUBSCRIPTIONS = 1 under
any operation, and a verified Subscribe on a full map answers
Error(TooManySubscriptions) without inserting. -/
theorem subscription_cap_invariant (vf : Verify) (st : ServerState) (op : ServerOp)
    (hinv : st.subscriptions.card ≤ MAX_SUBSCRIPTIONS) :
    (stepState vf st op).subscriptions.card ≤ MAX_SUBSCRIPTIONS
    ∧ (∀ a s o1 o2, vf a (getChallengeRaw st) s = true →
        st.subscriptions.card = MAX_SUBSCRIPTIONS →
        subscribe vf st a s o1 o2 = (st, errorResp .tooManySubscriptions)) := by
  constructor
  · cases op with
    | subOp a s o1 o2 =>
      show (subscribe vf st a s o1 o2).1.subscriptions.card ≤ MAX_SUBSCRIPTIONS
      unfold subscribe
      by_cases hvf : vf a (getChallengeRaw st) s = true
      · rw [if_pos hvf]
        by_cases hfull : st.subscriptions.card = MAX_SUBSCRIPTIONS
        · rw [if_pos hfull]; exact hinv
        · rw [if_neg hfull]
          cases o1 with
          | false => exact hinv
          | true =>
            cases o2 with
            | false => exact hinv
            | true =>
              show (insert a st.subscriptions).card ≤ MAX_SUBSCRIPTIONS
              have h1 := Finset.card_insert_le a st.subscriptions
              have hM : MAX_SUBSCRIPTIONS = 1 := rfl
              rw [hM] at hinv hfull ⊢
              omega
      · rw [if_neg hvf]; exact hinv
    | unsubOp a o1 =>
      show (unsubscribe st a o1).1.subscriptions.card ≤ MAX_SUBSCRIPTIONS
      unfold unsubscribe
      have he := Finset.card_erase_le (s := st.subscriptions) (a := a)
      by_cases hmem : a ∈ st.subscriptions
      · simp only [hmem]
        split <;> exact le_trans he hinv
      · simp only [hmem]
        split <;> exact le_trans he hinv
    | postOp f t s g ttl b1 b2 => exact hinv
    | teardown => exact hinv
  · intro a s o1 o2 hvf hfull
    simp [subscribe, hvf, hfull]

/-- C2 witness. -/
theorem subscription_cap_invariant_witness :
    demoState.subscriptions.card ≤ MAX_SUBSCRIPTIONS
    ∧ (stepState (fun _ _ _ => true) demoState (.subOp "a" "s" true true)).subscriptions.card
        ≤ MAX_SUBSCRIPTIONS :=
  ⟨by decide,
   (subscription_cap_invariant (fun _ _ _ => true) demoState (.subOp "a" "s" true true)
      (by decide)).1⟩

/-- C3 counterexample: a Subscribe whose signature fails verification is
answered Error(UnknownError), not Error(InvalidSignature). -/
theorem subscribe_invalid_signature_counterexample :
    (subscribe (fun _ _ _ => false) demoState "addr" "sig" true true).2
        = errorResp .unknownError
    ∧ (subscribe (fun _ _ _ => false) demoState "addr" "sig" true true).2
        ≠ errorResp .invalidSignature := by
  constructor
  · rfl
  · intro h
    simp [subscribe, errorResp] at h

/-- C3 amended: a Subscribe whose signature fails verification over the
session challenge is answered Error(UnknownError) and no subscription is
created (the state is unchanged). -/
theorem subscribe_invalid_signature_amended (vf : Verify) (st : ServerState)
    (a s : String) (o1 o2 : Bool) (h : vf a (getChallengeRaw st) s = false) :
    subscribe vf st a s o1 o2 = (st, errorResp .unknownError) := by
  simp [subscribe, h]

/-- C3 witness. -/
theorem subscribe_invalid_signature_amended_witness :
    (fun (_ _ _ : String) => false) "a" (getChallengeRaw demoState) "s" = false
    ∧ subscribe (fun _ _ _ => false) demoState "a" "s" true true
        = (demoState, errorResp .unknownError) :=
  ⟨rfl, subscribe_invalid_signature_amended (fun _ _ _ => false) demoState "a" "s" true true rfl⟩

/-- C4: on a peer Error the federation closure merely closes the socket
with the Abnormal code; the response to the originator is computed from
the ws::connect Result alone, so a completed exchange answers Ok even
when the peer answered Error. -/
theorem federated_peer_error_yields_ok :
    fedHandleMessage (errorResp .invalidSignature) = .closeAbnormal
    ∧ postSlateFederatedResult true = .ok
    ∧ postSlate demoCodec (fun _ _ _ => true) demoState demoKey (demoKey ++ "@x") "m" "s"
        none true true = .ok (.ok, none) :=
  ⟨rfl, rfl, rfl⟩

/-- C6: from_str_raw panics (unwrap of u16::from_str_radix) on an address
whose port component is empty or exceeds u16, whatever the codec. -/
theorem from_str_raw_panics_on_bad_port : ∀ (K : Type) (codec : B58Codec K),
    fromStrRaw codec (demoKey ++ "@x:") = .panicked
    ∧ fromStrRaw codec (demoKey ++ "@x:99999") = .panicked :=
  fun _ _ => ⟨rfl, rfl⟩

/-- C7 counterexample: a PostMessage carrying a caller ttl of 5 is
published with expiration "86400000", not an expiration derived from the
ttl. -/
theorem publish_ignores_ttl_counterexample :
    dispatchBrokerRequest (.postMessageB "subj" "payload" "replyto" (some 5))
        = some ⟨"subj", "payload", "replyto", "86400000"⟩
    ∧ ("86400000" : String) ≠ "5" ∧ ("86400000" : String) ≠ "5000" := by
  refine ⟨rfl, by decide, by decide⟩

/-- C7 amended: the published expiration header is always 86,400,000 ms,
any caller-supplied ttl being ignored; the reply-to header carries the
request's reply_to field unchanged. -/
theorem publish_expiration_fixed (subject payload reply_to : String) (ttl : Option Nat) :
    dispatchBrokerRequest (.postMessageB subject payload reply_to ttl)
        = some ⟨subject, payload, reply_to, DEFAULT_MESSAGE_EXPIRATION⟩
    ∧ (handle_post_message subject payload reply_to).reply_to = reply_to :=
  ⟨rfl, rfl⟩

/-- C8 counterexample: at retries = 64 the loop sleeps 0 seconds,
not min 32 (2 ^ 64) = 32, because 2u64.pow wraps. -/
theorem reconnect_backoff_overflow_counterexample :
    sleepSeconds 64 = 0 ∧ min 32 (2 ^ 64) = 32 ∧ sleepSeconds 64 ≠ min 32 (2 ^ 64) := by
  have h1 : sleepSeconds 64 = 0 := by
    simp [sleepSeconds, Nat.mod_self]
  have h2 : min 32 (2 ^ 64) = 32 := by
    rw [min_eq_left]
    norm_num
  refine ⟨h1, h2, ?_⟩
  rw [h1, h2]
  omega

/-- C8 amended: every failed attempt that does not observe the stop flag
sleeps min 32 (2 ^ retries) seconds while retries < 64 and 0 seconds once
retries ≥ 64 (u64 wrap of 2u64.pow), with retries starting at 0,
incremented (as a u32) after each sleep, and reset to zero on each
successful open. -/
theorem reconnect_backoff_amended (m : ConnMeta) :
    (m.retries < 64 → (failedAttemptStep m).2 = min 32 (2 ^ m.retries))
    ∧ (64 ≤ m.retries → (failedAttemptStep m).2 = 0)
    ∧ (failedAttemptStep m).1.retries = (m.retries + 1) % 2 ^ 32
    ∧ (onOpenMeta m).retries = 0
    ∧ ConnMeta.init.retries = 0 := by
  refine ⟨fun h => ?_, fun h => ?_, rfl, rfl, rfl⟩
  · show min 32 ((2 ^ m.retries) % 2 ^ 64) = min 32 (2 ^ m.retries)
    rw [Nat.mod_eq_of_lt (Nat.pow_lt_pow_right (by omega) h)]
  · show min 32 ((2 ^ m.retries) % 2 ^ 64) = 0
    obtain ⟨c, hc⟩ := pow_dvd_pow (2 : Nat) h
    rw [hc, Nat.mul_mod_right]
    simp

/-- C8 witness. -/
theorem reconnect_backoff_amended_witness :
    (3 : Nat) < 64 ∧ (failedAttemptStep ⟨3, true⟩).2 = min 32 (2 ^ 3) :=
  ⟨by omega, (reconnect_backoff_amended ⟨3, true⟩).1 (by decide)⟩

/-- C9: the server challenge is one constant: independent of the
connection state, so a Subscribe signature verifying against one
connection's challenge verifies against every other's. -/
theorem challenge_constant_across_connections :
    (∀ st₁ st₂ : ServerState, getChallengeRaw st₁ = getChallengeRaw st₂)
    ∧ (∀ (vf : Verify) (st₁ st₂ : ServerState) (a s : String),
        vf a (getChallengeRaw st₁) s = vf a (getChallengeRaw st₂) s) :=
  ⟨fun _ _ => rfl, fun _ _ _ _ _ => rfl⟩

/-- C10: Unsubscribe on a subscribed address removes the map entry before
the broker adapter is contacted; a failed adapter send answers
Error(UnknownError) with the entry still gone. -/
theorem unsubscribe_removes_entry_before_broker (st : ServerState) (a : String)
    (sendOk : Bool) (h : a ∈ st.subscriptions) :
    (unsubscribe st a sendOk).1.subscriptions = st.subscriptions.erase a
    ∧ a ∉ (unsubscribe st a sendOk).1.subscriptions
    ∧ (sendOk = false → (unsubscribe st a sendOk).2 = errorResp .unknownError)
    ∧ (sendOk = true → (unsubscribe st a sendOk).2 = .ok) := by
  have hsub : (unsubscribe st a sendOk).1.subscriptions = st.subscriptions.erase a := by
    simp [unsubscribe, h]
  refine ⟨hsub, ?_, ?_, ?_⟩
  · rw [hsub]
    exact Finset.not_mem_erase a st.subscriptions
  · intro hs
    subst hs
    simp [unsubscribe, h]
  · intro hs
    subst hs
    simp [unsubscribe, h]

/-- C10 witness. -/
theorem unsubscribe_removes_entry_before_broker_witness :
    "x" ∈ demoSubState.subscriptions
    ∧ "x" ∉ (unsubscribe demoSubState "x" false).1.subscriptions
    ∧ (unsubscribe demoSubState "x" false).2 = errorResp .unknownError :=
  ⟨by decide,
   (unsubscribe_removes_entry_before_broker demoSubState "x" false (by decide)).2.1,
   (unsubscribe_removes_entry_before_broker demoSubState "x" false (by decide)).2.2.1 rfl⟩

/-- C5 witness. -/
theorem address_roundtrip_canonical_witness :
    fromStr demoCodec true ("grinbox://" ++ demoKey ++ "@" ++ "x" ++ ":" ++ Nat.repr 13420)
        = .ok ⟨demoKey, "x", 13420, none⟩
    ∧ formatAddress ⟨demoKey, "x", 13420, none⟩
        = "grinbox://" ++ demoKey ++ "@" ++ "x" ++ ":" ++ Nat.repr 13420 :=
  ⟨((address_roundtrip_canonical demoCodec true demoKey "x" 13420 ⟨by decide, by decide⟩
      ⟨demoKey, rfl, rfl⟩ ⟨by decide, by decide⟩ (by decide)).2.2 (by decide)).1,
   ((address_roundtrip_canonical demoCodec true demoKey "x" 13420 ⟨by decide, by decide⟩
      ⟨demoKey, rfl, rfl⟩ ⟨by decide, by decide⟩ (by decide)).2.2 (by decide)).2.1⟩

end Grinbox
